import Mathlib

/-!
Verification development for the bbai repository (conversation orchestration
engine).  The definitions below are shallow embeddings of the TypeScript
sources, chiefly `src/api/src/llms/providers/baseLLM.ts` and
`src/api/src/editor/projectEditor.ts`.  External libraries (JSON.stringify,
ajv, jsdiff, @std/path) are modelled explicitly, with their modelling scope
stated in the doc comments.
-/

namespace BBai

/-! ## JSON values

Model of the JavaScript values carried in request parameters and tool
inputs.  Object fields are an ordered list, matching JavaScript object key
insertion order, which is what JSON.stringify serializes. -/

mutual
inductive Json where
| null : Json
| bool (b : Bool) : Json
| num (n : Int) : Json
| str (s : String) : Json
| arr (elems : JsonList) : Json
| obj (fields : JsonFields) : Json
deriving DecidableEq

inductive JsonList where
| nil : JsonList
| cons (head : Json) (tail : JsonList) : JsonList
deriving DecidableEq

inductive JsonFields where
| nil : JsonFields
| cons (key : String) (value : Json) (tail : JsonFields) : JsonFields
deriving DecidableEq
end

/-- Digit character for a value below ten. -/
def digitToChar (n : Nat) : Char :=
  match n with
  | 0 => '0' | 1 => '1' | 2 => '2' | 3 => '3' | 4 => '4'
  | 5 => '5' | 6 => '6' | 7 => '7' | 8 => '8' | _ => '9'

/-- Decimal digits of a natural number; structural recursion on a fuel
argument so that the kernel can evaluate it. -/
def natToStrAux : Nat → Nat → List Char
| 0, _ => []
| fuel + 1, n =>
  if n < 10 then [digitToChar n]
  else natToStrAux fuel (n / 10) ++ [digitToChar (n % 10)]

/-- Decimal rendering of a natural number, as JavaScript String(n). -/
def natToStr (n : Nat) : String := ⟨natToStrAux (n + 1) n⟩

/-- Decimal rendering of an integer, as JavaScript String(n) for integral
numbers. -/
def intToStr : Int → String
| .ofNat n => natToStr n
| .negSucc n => "-" ++ natToStr (n + 1)

mutual
/-- Models JSON.stringify on the values used by this repository: no spaces,
fields serialized in insertion order.  String escaping is not modelled; the
strings appearing in the claims contain no characters that JSON.stringify
would escape. -/
def Json.stringify : Json → String
| .null => "null"
| .bool true => "true"
| .bool false => "false"
| .num n => intToStr n
| .str s => "\"" ++ s ++ "\""
| .arr xs => "[" ++ JsonList.stringifyElems xs ++ "]"
| .obj fs => "\x7b" ++ JsonFields.stringifyFields fs ++ "\x7d"

/-- Comma-separated serialization of array elements. -/
def JsonList.stringifyElems : JsonList → String
| .nil => ""
| .cons j .nil => Json.stringify j
| .cons j tl => Json.stringify j ++ "," ++ JsonList.stringifyElems tl

/-- Comma-separated serialization of object fields, in insertion order. -/
def JsonFields.stringifyFields : JsonFields → String
| .nil => ""
| .cons k v .nil => "\"" ++ k ++ "\":" ++ Json.stringify v
| .cons k v tl => "\"" ++ k ++ "\":" ++ Json.stringify v ++ "," ++ JsonFields.stringifyFields tl
end

/-- Object fields as a plain list of key/value pairs. -/
def JsonFields.toList : JsonFields → List (String × Json)
| .nil => []
| .cons k v tl => (k, v) :: tl.toList

/-- Two JSON objects hold the same set of key-value pairs (the claims call
such requests semantically identical); on non-objects, plain equality. -/
def sameKeyValueSet (a b : Json) : Bool :=
  match a, b with
  | .obj fa, .obj fb =>
    decide (∀ kv ∈ fa.toList, kv ∈ fb.toList) && decide (∀ kv ∈ fb.toList, kv ∈ fa.toList)
  | _, _ => decide (a = b)

/-- Embeds `LLM.createRequestCacheKey` (src/api/src/llms/providers/baseLLM.ts,
lines 157-163): the cache key is the triple of the literal string
"messageRequest", the provider name, and JSON.stringify of the fully
prepared request parameters. -/
def createRequestCacheKey (llmProviderName : String) (messageParams : Json) : List String :=
  ["messageRequest", llmProviderName, messageParams.stringify]

/-! ## Strings and posix paths

Character-level string helpers (structural recursion, so the kernel can
evaluate them), and a model of the @std/path posix functions used by
`ProjectEditor`. -/

/-- Split a list of characters on a separator character. -/
def splitOnCharAux (sep : Char) : List Char → List Char → List String
| acc, [] => [String.mk acc.reverse]
| acc, c :: cs =>
  if c = sep then String.mk acc.reverse :: splitOnCharAux sep [] cs
  else splitOnCharAux sep (c :: acc) cs

/-- Split a string on a separator character, as JavaScript split. -/
def splitOnChar (sep : Char) (s : String) : List String := splitOnCharAux sep [] s.data

/-- Join lines with a slash separator. -/
def intercalateSlash : List String → String
| [] => ""
| [x] => x
| x :: xs => x ++ "/" ++ intercalateSlash xs

/-- Join lines with newline separators (inverse of splitting on newline). -/
def joinLines : List String → String
| [] => ""
| [l] => l
| l :: ls => l ++ "\n" ++ joinLines ls

/-- Models String.prototype.startsWith: the second string is a character
prefix of the first. -/
def jsStartsWith (s pre : String) : Bool := pre.data.isPrefixOf s.data

/-- A posix path is absolute when it begins with a slash. -/
def isAbsolutePath (s : String) : Bool :=
  match s.data with
  | '/' :: _ => true
  | _ => false

/-- Process posix path segments of an absolute path, resolving "." and "..";
".." at the root is dropped, as @std/path resolve does. -/
def normSegmentsAbs : List String → List String → List String
| stack, [] => stack.reverse
| stack, seg :: rest =>
  if seg = "." ∨ seg = "" then normSegmentsAbs stack rest
  else if seg = ".." then
    match stack with
    | [] => normSegmentsAbs [] rest
    | _ :: tl => normSegmentsAbs tl rest
  else normSegmentsAbs (seg :: stack) rest

/-- Process posix path segments of a relative path, resolving "." and "..";
leading ".." segments are retained, as @std/path normalize does. -/
def normSegmentsRel : List String → List String → List String
| stack, [] => stack.reverse
| stack, seg :: rest =>
  if seg = "." ∨ seg = "" then normSegmentsRel stack rest
  else if seg = ".." then
    match stack with
    | [] => normSegmentsRel [".."] rest
    | top :: tl =>
      if top = ".." then normSegmentsRel (".." :: stack) rest
      else normSegmentsRel tl rest
  else normSegmentsRel (seg :: stack) rest

/-- Models @std/path normalize (posix): resolves "." and ".." segments and
collapses repeated slashes.  Trailing-slash preservation is not modelled; no
path in the claims has a trailing slash. -/
def normalizePath (p : String) : String :=
  let segs := splitOnChar '/' p
  if isAbsolutePath p then "/" ++ intercalateSlash (normSegmentsAbs [] segs)
  else
    let ns := normSegmentsRel [] segs
    if ns = [] then "." else intercalateSlash ns

/-- Models @std/path resolve (posix) for an absolute first argument, which
is how `ProjectEditor` calls it: the project root comes from the git root
and is absolute.  An absolute second argument wins; otherwise the second is
resolved against the first. -/
def resolvePath (root p : String) : String :=
  if isAbsolutePath p then "/" ++ intercalateSlash (normSegmentsAbs [] (splitOnChar '/' p))
  else "/" ++ intercalateSlash (normSegmentsAbs [] (splitOnChar '/' root ++ splitOnChar '/' p))

/-- Embeds `ProjectEditor.isPathWithinProject` (projectEditor.ts, lines
147-151): normalize the file path, resolve it against the project root, and
test whether the resolved string starts with the project root. -/
def isPathWithinProject (projectRoot filePath : String) : Bool :=
  jsStartsWith (resolvePath projectRoot (normalizePath filePath)) projectRoot

/-! ## Unified diffs

Model of the jsdiff library as used by `ProjectEditor`: `applyPatch` with a
fuzz factor, and `createPatch`.  Patches are carried as text, as the source
stores patch text in the patch log, and parsed on use. -/

/-- One line of a hunk body: context, addition, or deletion. -/
inductive DiffOp where
| ctx : DiffOp
| add : DiffOp
| del : DiffOp
deriving DecidableEq

/-- A unified-diff hunk: its one-based start line in the old file and its
body lines. -/
structure Hunk where
  oldStart : Nat
  lines : List (DiffOp × String)
deriving DecidableEq

/-- A parsed patch is its list of hunks. -/
abbrev Patch := List Hunk

/-- Parse a decimal number from the front of a character list. -/
def parseNatChars : List Char → Nat → Nat
| [], acc => acc
| c :: cs, acc =>
  if c.isDigit then parseNatChars cs (acc * 10 + (c.toNat - 48)) else acc

/-- Parse the old-file start line out of a hunk header of the form
"@@ -a,b +c,d @@". -/
def parseHunkHeader (line : String) : Option Nat :=
  match line.data with
  | '@' :: '@' :: ' ' :: '-' :: rest => some (parseNatChars rest 0)
  | _ => none

/-- Close the hunk currently being accumulated, if any. -/
def flushHunk : Option (Nat × List (DiffOp × String)) → Patch
| none => []
| some (s, acc) => [⟨s, acc.reverse⟩]

/-- Models the jsdiff unified-diff parser on the patch texts this repository
produces and consumes: header lines before the first "@@" hunk header are
skipped; inside a hunk, lines starting with "+", "-" and " " are additions,
deletions and context, and a no-newline marker line is skipped. -/
def parsePatchAux : Option (Nat × List (DiffOp × String)) → List String → Patch
| cur, [] => flushHunk cur
| cur, line :: rest =>
  match parseHunkHeader line with
  | some s2 => flushHunk cur ++ parsePatchAux (some (s2, [])) rest
  | none =>
    match cur with
    | none => parsePatchAux none rest
    | some (s, acc) =>
      match line.data with
      | '+' :: cs => parsePatchAux (some (s, (DiffOp.add, String.mk cs) :: acc)) rest
      | '-' :: cs => parsePatchAux (some (s, (DiffOp.del, String.mk cs) :: acc)) rest
      | ' ' :: cs => parsePatchAux (some (s, (DiffOp.ctx, String.mk cs) :: acc)) rest
      | '\\' :: _ => parsePatchAux (some (s, acc)) rest
      | _ => ⟨s, acc.reverse⟩ :: parsePatchAux none rest

/-- Parse a unified-diff text into its hunks. -/
def parsePatch (text : String) : Patch := parsePatchAux none (splitOnChar '\n' text)

/-- Apply one hunk body at the current position.  Returns the replacement
lines, the remaining input lines, and the number of input lines consumed.
Deleted lines must match exactly; up to fuzz context lines may mismatch
(the jsdiff fuzzFactor), in which case the file line is kept. -/
def applyHunkLines : Nat → List (DiffOp × String) → List String → Option (List String × List String × Nat)
| _, [], ls => some ([], ls, 0)
| fuzz, (DiffOp.add, t) :: hs, ls =>
  match applyHunkLines fuzz hs ls with
  | some (out, rest, n) => some (t :: out, rest, n)
  | none => none
| _, (DiffOp.del, _) :: _, [] => none
| fuzz, (DiffOp.del, t) :: hs, l :: ls =>
  if l = t then
    match applyHunkLines fuzz hs ls with
    | some (out, rest, n) => some (out, rest, n + 1)
    | none => none
  else none
| _, (DiffOp.ctx, _) :: _, [] => none
| fuzz, (DiffOp.ctx, t) :: hs, l :: ls =>
  if l = t then
    match applyHunkLines fuzz hs ls with
    | some (out, rest, n) => some (l :: out, rest, n + 1)
    | none => none
  else if 0 < fuzz then
    match applyHunkLines (fuzz - 1) hs ls with
    | some (out, rest, n) => some (l :: out, rest, n + 1)
    | none => none
  else none

/-- Apply the hunks of a patch in order, tracking how many old-file lines
have been consumed so far. -/
def applyHunks (fuzz : Nat) : Patch → Nat → List String → Option (List String)
| [], _, ls => some ls
| h :: hs, pos, ls =>
  let skip := h.oldStart - 1 - pos
  if ls.length < skip then none
  else
    match applyHunkLines fuzz h.lines (ls.drop skip) with
    | none => none
    | some (out, rest, consumed) =>
      match applyHunks fuzz hs (pos + skip + consumed) rest with
      | none => none
      | some final => some (ls.take skip ++ out ++ final)

/-- Models jsdiff applyPatch: split the content into lines, apply each hunk
at its stated position, and rejoin; a mismatch beyond the fuzz budget fails
(jsdiff returns false there).  The nearby-position search of jsdiff is not
modelled; no claim depends on it. -/
def applyPatch (content patchText : String) (fuzz : Nat) : Option String :=
  joinLines <$> applyHunks fuzz (parsePatch patchText) 0 (splitOnChar '\n' content)

/-- Models jsdiff createPatch: a unified-diff text transforming oldStr into
newStr.  Modelled as a single full-replacement hunk; jsdiff computes a
minimal diff with context, but any correct diff between the two contents
serves the claims, which never inspect the produced patch text itself. -/
def createPatch (fileName oldStr newStr : String) : String :=
  let oldLines := splitOnChar '\n' oldStr
  let newLines := splitOnChar '\n' newStr
  "Index: " ++ fileName ++ "\n" ++
    String.mk (List.replicate 67 '=') ++ "\n" ++
    "--- " ++ fileName ++ "\n" ++
    "+++ " ++ fileName ++ "\n" ++
    "@@ -1," ++ natToStr oldLines.length ++ " +1," ++ natToStr newLines.length ++ " @@\n" ++
    joinLines (oldLines.map (fun l => "-" ++ l)) ++ "\n" ++
    joinLines (newLines.map (fun l => "+" ++ l))

/-! ## Filesystem and editor state

The filesystem collaborator (Deno text file read/write), the patch log kept
by the persistence collaborator, and the two patch operations of
`ProjectEditor`. -/

/-- Filesystem failures distinguished by the source: Deno.errors.NotFound
and Deno.errors.PermissionDenied. -/
inductive FileErr where
| notFound : FileErr
| permissionDenied : FileErr
deriving DecidableEq

/-- One file of the modelled filesystem, with permission flags so that reads
and writes can fail. -/
structure FsEntry where
  content : String
  readable : Bool := true
  writable : Bool := true
deriving DecidableEq

/-- The filesystem: an association of path strings to files. -/
abbrev Fs := List (String × FsEntry)

/-- Read a text file: NotFound when absent, PermissionDenied when not
readable. -/
def fsRead (fs : Fs) (path : String) : Except FileErr String :=
  match fs.find? (fun e => e.1 == path) with
  | none => .error .notFound
  | some (_, e) => if e.readable then .ok e.content else .error .permissionDenied

/-- Replace the content of an existing file in place. -/
def fsSet : Fs → String → String → Fs
| [], _, _ => []
| (p, e) :: rest, path, content =>
  if p = path then (p, { e with content := content }) :: rest
  else (p, e) :: fsSet rest path content

/-- Write a text file: creates the file when absent (as Deno.writeTextFile
does), PermissionDenied when present but not writable. -/
def fsWrite (fs : Fs) (path content : String) : Except FileErr Fs :=
  match fs.find? (fun e => e.1 == path) with
  | none => .ok (fs ++ [(path, ⟨content, true, true⟩)])
  | some (_, e) =>
    if e.writable then .ok (fsSet fs path content) else .error .permissionDenied

/-- One entry of the patch log: the patched file path and the patch text,
in application order (src stores exactly these two fields). -/
structure PatchLogEntry where
  filePath : String
  patchText : String
deriving DecidableEq

/-- A FileHandling error as built by createError in the source: its message
and the filePath/operation context fields. -/
structure FileHandlingError where
  message : String
  filePath : String
  operation : String
deriving DecidableEq

/-- The state handleApplyPatch and revertLastPatch act on: the filesystem
and the conversation patch log. -/
structure EditorSt where
  fs : Fs
  patchLog : List PatchLogEntry
deriving DecidableEq

/-- Embeds `ProjectEditor.handleApplyPatch` (projectEditor.ts, lines
316-372) as a state transformer.  The file is read and written at the raw
filePath, as the source does.  A patch conflict is thrown inside the try
block and re-wrapped by the generic catch branch, so the surfaced error is
the wrapped "Failed to apply patch to ..." one.  The asynchronous ctags
refresh is fire-and-forget and is not modelled. -/
def handleApplyPatch (projectRoot : String) (st : EditorSt) (filePath patchText : String) :
    Except FileHandlingError Unit × EditorSt :=
  if ¬ isPathWithinProject projectRoot filePath then
    (.error ⟨"Access denied: " ++ filePath ++ " is outside the project directory", filePath, "patch"⟩, st)
  else
    match fsRead st.fs filePath with
    | .error .notFound => (.error ⟨"File not found: " ++ filePath, filePath, "read"⟩, st)
    | .error .permissionDenied => (.error ⟨"Permission denied for file: " ++ filePath, filePath, "write"⟩, st)
    | .ok currentContent =>
      match applyPatch currentContent patchText 2 with
      | none => (.error ⟨"Failed to apply patch to " ++ filePath, filePath, "patch"⟩, st)
      | some patchedContent =>
        match fsWrite st.fs filePath patchedContent with
        | .error .notFound => (.error ⟨"File not found: " ++ filePath, filePath, "read"⟩, st)
        | .error .permissionDenied => (.error ⟨"Permission denied for file: " ++ filePath, filePath, "write"⟩, st)
        | .ok fs2 => (.ok (), { fs := fs2, patchLog := st.patchLog ++ [⟨filePath, patchText⟩] })

/-- Embeds `ProjectEditor.revertLastPatch` (projectEditor.ts, lines
456-497) as a state transformer over the same state.  The forward patch is
re-applied to the file content as currently on disk, exactly as the source
does; failures leave the state as it was at the point of failure, and the
log entry is removed only in the final step after the reverted content has
been written. -/
def revertLastPatch (st : EditorSt) : Except String Unit × EditorSt :=
  match st.patchLog.getLast? with
  | none => (.error "No patches to revert.", st)
  | some lastPatch =>
    match fsRead st.fs lastPatch.filePath with
    | .error .notFound => (.error "read failed: NotFound", st)
    | .error .permissionDenied => (.error "read failed: PermissionDenied", st)
    | .ok currentContent =>
      match applyPatch currentContent lastPatch.patchText 0 with
      | none => (.error "Failed to apply original patch. Cannot create reverse patch.", st)
      | some patchResult =>
        match applyPatch currentContent (createPatch lastPatch.filePath patchResult currentContent) 0 with
        | none => (.error "Failed to revert patch. The current file content may have changed.", st)
        | some revertedContent =>
          match fsWrite st.fs lastPatch.filePath revertedContent with
          | .error .notFound => (.error "write failed: NotFound", st)
          | .error .permissionDenied => (.error "write failed: PermissionDenied", st)
          | .ok fs2 => (.ok (), { fs := fs2, patchLog := st.patchLog.dropLast })

/-! ## Tools, responses and schema validation

Data model of provider responses and registered tools, after
src/api/src/types.ts, and a model of the ajv validator on the schemas this
repository registers. -/

/-- Property type in the tool input schemas this repository registers:
either a string or an array of strings. -/
inductive SchemaType where
| string : SchemaType
| arrayOfString : SchemaType
deriving DecidableEq

/-- A tool input schema as registered by addDefaultTools: type object, a
property list, and a required list. -/
structure ToolSchema where
  properties : List (String × SchemaType)
  required : List String
deriving DecidableEq

/-- A registered tool (src/api/src/types.ts LLMTool): name, description and
input contract. -/
structure Tool where
  name : String
  description : String
  input_schema : ToolSchema
deriving DecidableEq

/-- All elements of a JSON array are strings. -/
def allStrings : JsonList → Bool
| .nil => true
| .cons (.str _) tl => allStrings tl
| .cons _ _ => false

/-- A JSON value matches a schema property type. -/
def jsonTypeMatches : SchemaType → Json → Bool
| .string, .str _ => true
| .arrayOfString, .arr xs => allStrings xs
| _, _ => false

/-- An object field list carries the given key. -/
def fieldsHaveKey : JsonFields → String → Bool
| .nil, _ => false
| .cons k _ tl, key => if k = key then true else fieldsHaveKey tl key

/-- First value bound to the given key in an object field list. -/
def fieldsLookup : JsonFields → String → Option Json
| .nil, _ => none
| .cons k v tl, key => if k = key then some v else fieldsLookup tl key

/-- Every present field that the schema names matches its declared type
(fields the schema does not name are permitted, the ajv default). -/
def fieldsConform (props : List (String × SchemaType)) : JsonFields → Bool
| .nil => true
| .cons k v tl =>
  (match props.find? (fun p => p.1 == k) with
   | some (_, t) => jsonTypeMatches t v
   | none => true) && fieldsConform props tl

/-- Models the ajv validator compiled from the object schemas this
repository registers: the input must be an object, every required property
must be present, and every present property named in the schema must match
its declared type. -/
def ajvValidate (schema : ToolSchema) (input : Json) : Bool :=
  match input with
  | .obj fields =>
    schema.required.all (fieldsHaveKey fields) && fieldsConform schema.properties fields
  | _ => false

/-- Token usage of one response (src/api/src/types.ts LLMTokenUsage). -/
structure LLMTokenUsage where
  inputTokens : Nat
  outputTokens : Nat
  totalTokens : Nat
deriving DecidableEq

/-- Transport status attached to a response
(src/api/src/types.ts LLMProviderMessageResponseMeta). -/
structure ResponseMeta where
  status : Nat
  statusText : String
deriving DecidableEq

/-- The stop-reason wrapper (src/api/src/types.ts LLMMessageStop); the
reason is carried as its string value. -/
structure MessageStop where
  stopReason : String
deriving DecidableEq

/-- One extracted tool invocation, with the fields extractToolUse fills. -/
structure ToolUse where
  toolName : String
  toolUseId : String
  toolInput : Json
  toolThinking : String
deriving DecidableEq

/-- One part of a response content stream: free text, an image, or a
structured tool-use block. -/
inductive ContentPart where
| text (text : String) : ContentPart
| image (url : String) : ContentPart
| toolUse (id : String) (name : String) (input : Json) : ContentPart
deriving DecidableEq

/-- A provider response (src/api/src/types.ts LLMProviderMessageResponse)
with the fields the embedded code reads.  The rate-limit snapshot is
carried as the precomputed wait requestsResetDate.getTime() − Date.now()
that the 429 branch uses. -/
structure MessageResponse where
  id : String := ""
  providerMessageResponseMeta : ResponseMeta := ⟨200, ""⟩
  messageStop : MessageStop := ⟨"end_turn"⟩
  isTool : Bool := false
  toolsUsed : List ToolUse := []
  answerContent : List ContentPart := []
  usage : LLMTokenUsage := ⟨0, 0, 0⟩
  requestsResetWaitMs : Int := 0
deriving DecidableEq

/-- A conversation as the embedded code touches it: identity, model,
registered tools, and the running totals. -/
structure Conversation where
  id : String := ""
  model : String := ""
  tools : List Tool := []
  totalInputTokens : Nat := 0
  totalOutputTokens : Nat := 0
  totalTokens : Nat := 0
  totalProviderRequests : Nat := 0
deriving DecidableEq

/-- Modelled from the spec: `LLMConversation.getTool` lives in
src/api/src/llms/conversation.ts, which is not among the sources; per the
spec data model a conversation holds "registered Tools (name → schema)", so
getTool is lookup by name among the registered tools. -/
def Conversation.getTool (c : Conversation) (name : String) : Option Tool :=
  c.tools.find? (fun t => t.name == name)

/-- Modelled from the spec: `LLMConversation.updateTotals` lives in
src/api/src/llms/conversation.ts, which is not among the sources; per spec
section 4.4 it updates "the conversation's running totals (input/output/
total tokens, request count) with whatever was accumulated across
attempts", so the accumulated usage and request count are added onto the
running totals. -/
def Conversation.updateTotals (c : Conversation) (usage : LLMTokenUsage) (requests : Nat) :
    Conversation :=
  { c with
    totalInputTokens := c.totalInputTokens + usage.inputTokens,
    totalOutputTokens := c.totalOutputTokens + usage.outputTokens,
    totalTokens := c.totalTokens + usage.totalTokens,
    totalProviderRequests := c.totalProviderRequests + requests }

/-- The optional caller-supplied semantic check
(src/api/src/types.ts LLMValidateResponseCallback): a failure reason, or
none when the response is acceptable. -/
abbrev ValidateCallback := MessageResponse → Conversation → Option String

/-- Stand-in for ajv.errorsText of a failed validation; the source
interpolates the ajv error list, whose exact wording is library-internal. -/
def ajvErrorsText : String := "data does not conform to the input schema"

/-- The per-invocation checks of validateResponse, in source order: look up
the named tool; when registered, a max_tokens stop reason fails as
truncated tool input, then the input must validate against the schema; an
unregistered name fails as tool-not-found. -/
def validateToolsUsed (conv : Conversation) (stopReason : String) : List ToolUse → Option String
| [] => none
| tu :: rest =>
  match conv.getTool tu.toolName with
  | some tool =>
    if stopReason = "max_tokens" then some "Tool exceeded max tokens"
    else if ajvValidate tool.input_schema tu.toolInput then validateToolsUsed conv stopReason rest
    else some ("Tool input validation failed: " ++ ajvErrorsText)
  | none => some ("Tool not found: " ++ tu.toolName)

/-- Embeds `LLM.validateResponse` (baseLLM.ts, lines 373-416): when the
response is tool-flagged with a non-empty tool list, each tool use is
checked in order by validateToolsUsed; afterwards the optional
caller-supplied callback may still reject. -/
def validateResponse (resp : MessageResponse) (conv : Conversation) (cb : Option ValidateCallback) :
    Option String :=
  match
    (if resp.isTool && !resp.toolsUsed.isEmpty then
      validateToolsUsed conv resp.messageStop.stopReason resp.toolsUsed
    else none) with
  | some reason => some reason
  | none =>
    match cb with
    | some f => f resp conv
    | none => none

/-- Embeds the body of `LLM.extractToolUse` (baseLLM.ts, lines 418-440).
Free text accumulates as thinking for the next tool use; when processing
the final content part, a text part is also appended to the thinking of the
last pushed tool by indexing toolsUsed at length − 1 — when nothing was
pushed, that indexing reads a field of undefined and raises, modelled as
none. -/
def extractLoop (thinking : String) (acc : List ToolUse) : List ContentPart → Option (List ToolUse)
| [] => some acc
| p :: rest =>
  let next : String × List ToolUse :=
    match p with
    | .text s => (thinking ++ s, acc)
    | .toolUse id name input => ("", acc ++ [⟨name, id, input, thinking⟩])
    | .image _ => (thinking, acc)
  match rest with
  | [] =>
    match p with
    | .text s =>
      match next.2.getLast? with
      | none => none
      | some last => some (next.2.dropLast ++ [{ last with toolThinking := last.toolThinking ++ s }])
    | _ => some next.2
  | _ :: _ => extractLoop next.1 next.2 rest

/-- Embeds `LLM.extractToolUse` run, as speakWithPlus does, on a response
whose toolsUsed list was just initialized to empty. -/
def extractToolUse (answerContent : List ContentPart) : Option (List ToolUse) :=
  extractLoop "" [] answerContent

/-! ## The resilient request client and the retrying wrapper -/

/-- One attempt of the abstract provider transport `LLM.speakWith`: the
call either raises or returns a structured response. -/
inductive SpeakAttempt where
| threw (msg : String) : SpeakAttempt
| resp (r : MessageResponse) : SpeakAttempt

/-- An LLM error as built by createError(ErrorType.LLM, ...): the message
and the args.reason diagnostic field. -/
structure LLMError where
  message : String
  reason : String := ""
deriving DecidableEq

/-- Embeds the status-driven retry loop of `LLM.speakWithPlus` (baseLLM.ts,
lines 194-260).  attempts gives the response of the i-th call of
this.speakWith; retriesLeft is maxRetries − retries; delay is the current
backoff.  Returns the outcome together with the list of waits slept, in
milliseconds.  A 2xx breaks out with the response; 429 sleeps the larger of
the rate-limit reset wait and the current delay without doubling it; 5xx
sleeps the current delay and doubles it; any other status is thrown inside
the try block and so is surfaced re-wrapped by the catch branch as an
unexpected error, as in the source; exhausting the budget yields the
max-retries error. -/
def speakWithPlusLoop (attempts : Nat → SpeakAttempt) :
    Nat → Nat → Int → Except LLMError MessageResponse × List Int
| _, 0, _ => (.error ⟨"Max retries reached when calling LLM service.", ""⟩, [])
| i, retriesLeft + 1, delay =>
  match attempts i with
  | .threw msg => (.error ⟨"Unexpected error calling LLM service: " ++ msg, msg⟩, [])
  | .resp r =>
    let status := r.providerMessageResponseMeta.status
    if 200 ≤ status ∧ status < 300 then (.ok r, [])
    else if status = 429 then
      let waitTime := max r.requestsResetWaitMs delay
      let res := speakWithPlusLoop attempts (i + 1) retriesLeft delay
      (res.1, waitTime :: res.2)
    else if 500 ≤ status then
      let res := speakWithPlusLoop attempts (i + 1) retriesLeft (delay * 2)
      (res.1, delay :: res.2)
    else
      (.error ⟨"Unexpected error calling LLM service: Error calling LLM service: "
          ++ r.providerMessageResponseMeta.statusText,
        "Error calling LLM service: " ++ r.providerMessageResponseMeta.statusText⟩, [])

/-- The attempt budget LLM.maxSpeakRetries, default 3. -/
def maxSpeakRetries : Nat := 3

/-- The retry loop of speakWithPlus started as the source starts it: full
budget, 1000 ms initial backoff delay. -/
def speakWithPlusRetries (attempts : Nat → SpeakAttempt) :
    Except LLMError MessageResponse × List Int :=
  speakWithPlusLoop attempts 0 maxSpeakRetries 1000

/-- Componentwise sum of token usage, as the += accumulation in
speakWithRetry. -/
def addUsage (a b : LLMTokenUsage) : LLMTokenUsage :=
  ⟨a.inputTokens + b.inputTokens, a.outputTokens + b.outputTokens, a.totalTokens + b.totalTokens⟩

/-- Embeds the attempt loop of `LLM.speakWithRetry` (baseLLM.ts, lines
302-371).  plusResults gives the outcome of the i-th call of speakWithPlus
(a raised error, or a returned response); the loop accumulates usage and
the provider-request count, records the last failure reason, keeps the last
returned response, and breaks on the first response that validates.  The
base-class modifySpeakWithConversationOptions is a no-op.  Returns the
accumulated usage, the request count, the failure reason and the last
response. -/
def speakWithRetryLoop (conv : Conversation) (plusResults : Nat → Except String MessageResponse)
    (cb : Option ValidateCallback) :
    Nat → Nat → LLMTokenUsage → Nat → String → Option MessageResponse →
    LLMTokenUsage × Nat × String × Option MessageResponse
| _, 0, acc, reqs, failReason, last => (acc, reqs, failReason, last)
| i, retriesLeft + 1, acc, reqs, failReason, last =>
  match plusResults i with
  | .error msg =>
    speakWithRetryLoop conv plusResults cb (i + 1) retriesLeft acc (reqs + 1)
      ("caught error: " ++ msg) last
  | .ok resp =>
    let acc2 := addUsage acc resp.usage
    match validateResponse resp conv cb with
    | none => (acc2, reqs + 1, failReason, some resp)
    | some why =>
      speakWithRetryLoop conv plusResults cb (i + 1) retriesLeft acc2 (reqs + 1)
        ("validation: " ++ why) (some resp)

/-- Embeds `LLM.speakWithRetry` (baseLLM.ts, lines 302-371): run up to
maxSpeakRetries attempts, update the conversation running totals with
whatever was accumulated, then return the last response obtained if any
attempt returned one, and otherwise fail with the retry-exhaustion error
carrying the last failure reason. -/
def speakWithRetry (conv : Conversation) (plusResults : Nat → Except String MessageResponse)
    (cb : Option ValidateCallback) : Conversation × Except LLMError MessageResponse :=
  let out := speakWithRetryLoop conv plusResults cb 0 maxSpeakRetries ⟨0, 0, 0⟩ 0 "" none
  let conv2 := conv.updateTotals out.1 out.2.1
  match out.2.2.2 with
  | some resp => (conv2, .ok resp)
  | none => (conv2, .error ⟨"Request failed after multiple retries.", out.2.2.1⟩)

/-! ## Tool dispatch and the conversation turn loop -/

/-- Join with ", " as JavaScript Array.prototype.join. -/
def intercalateComma : List String → String
| [] => ""
| [x] => x
| x :: xs => x ++ ", " ++ intercalateComma xs

/-- The string elements of a JSON array, when all elements are strings. -/
def jsonStringList : JsonList → Option (List String)
| .nil => some []
| .cons (.str s) tl => (fun l => s :: l) <$> jsonStringList tl
| .cons _ _ => none

/-- Models the JavaScript TypeError raised when a tool input lacks the
field the handler destructures. -/
def typeError : FileHandlingError := ⟨"TypeError", "", ""⟩

/-- Embeds `ProjectEditor.addFiles` (projectEditor.ts, lines 374-426) over
the filesystem: each file name must pass the path containment check and
then be readable at projectRoot/fileName; the first failure raises (access
denied, or the wrapped failed-to-add error).  Returns the added names; the
message-array append on the conversation is a persistence-collaborator
effect that is not modelled. -/
def addFiles (projectRoot : String) (fs : Fs) : List String → Except FileHandlingError (List String)
| [] => .ok []
| fileName :: rest =>
  if ¬ isPathWithinProject projectRoot fileName then
    .error ⟨"Access denied: " ++ fileName ++ " is outside the project directory", fileName, "write"⟩
  else
    match fsRead fs (projectRoot ++ "/" ++ fileName) with
    | .error _ => .error ⟨"Failed to add file " ++ fileName, fileName, "write"⟩
    | .ok _ => (fun l => fileName :: l) <$> addFiles projectRoot fs rest

/-- The three tool names the dispatch switch of handleToolUse recognizes. -/
def knownToolNames : List String := ["request_files", "vector_search", "apply_patch"]

/-- Embeds `ProjectEditor.handleToolUse` (projectEditor.ts, lines 262-286):
dispatch by tool name; request_files adds files (its feedback joins the
returned objects, which JavaScript renders as "[object Object]");
vector_search consults the stubbed searchEmbeddings, which returns an empty
list; apply_patch delegates to handleApplyPatch; an unknown name produces
the unrecognized-tool feedback string with no state change.  Handler errors
propagate. -/
def handleToolUse (projectRoot : String) (st : EditorSt) (tu : ToolUse) :
    Except FileHandlingError String × EditorSt :=
  if tu.toolName = "request_files" then
    match tu.toolInput with
    | .obj fields =>
      match fieldsLookup fields "fileNames" with
      | some (.arr xs) =>
        match jsonStringList xs with
        | some names =>
          match addFiles projectRoot st.fs names with
          | .error e => (.error e, st)
          | .ok added =>
            (.ok ("Files added to the conversation: "
              ++ intercalateComma (added.map (fun _ => "[object Object]"))), st)
        | none => (.error typeError, st)
      | _ => (.error typeError, st)
    | _ => (.error typeError, st)
  else if tu.toolName = "vector_search" then
    match tu.toolInput with
    | .obj fields =>
      match fieldsLookup fields "query" with
      | some (.str q) =>
        (.ok ("Vector search completed for query: \"" ++ q ++ "\". 0 results found."), st)
      | _ => (.error typeError, st)
    | _ => (.error typeError, st)
  else if tu.toolName = "apply_patch" then
    match tu.toolInput with
    | .obj fields =>
      match fieldsLookup fields "filePath", fieldsLookup fields "patch" with
      | some (.str filePath), some (.str patchText) =>
        match handleApplyPatch projectRoot st filePath patchText with
        | (.ok _, st2) => (.ok ("Patch applied successfully to file: " ++ filePath), st2)
        | (.error e, st2) => (.error e, st2)
      | _, _ => (.error typeError, st)
    | _ => (.error typeError, st)
  else (.ok ("Unknown tool used: " ++ tu.toolName), st)

/-- The tool-feedback accumulation of the turn loop in speakWithLLM: each
tool use of the current response is dispatched sequentially and its
feedback concatenated followed by a newline; a handler error aborts. -/
def dispatchTools (projectRoot : String) (st : EditorSt) :
    List ToolUse → Except FileHandlingError (String × EditorSt)
| [] => .ok ("", st)
| tu :: rest =>
  match handleToolUse projectRoot st tu with
  | (.error e, _) => .error e
  | (.ok fb, st2) =>
    match dispatchTools projectRoot st2 rest with
    | .error e => .error e
    | .ok (fbs, st3) => .ok (fb ++ "\n" ++ fbs, st3)

/-- The turn bound of ProjectEditor.speakWithLLM, maxTurns = 5. -/
def maxTurns : Nat := 5

/-- Embeds the turn loop of `ProjectEditor.speakWithLLM` (projectEditor.ts,
lines 205-259).  respond k is the response of the k-th call of
conversation.speakWithLLM, modelled from the spec as a response oracle
(conversation.ts is not among the sources): call 0 answers the initial
prompt and call k+1 the k-th tool-feedback follow-up.  The fuel argument is
maxTurns − currentTurn, so the loop structure is the source while loop.
Returns the final response, the final turn counter and the final state. -/
def turnLoopAux (projectRoot : String) (respond : Nat → MessageResponse) :
    MessageResponse → EditorSt → Nat → Nat → Except FileHandlingError (MessageResponse × Nat × EditorSt)
| cur, st, turn, 0 => .ok (cur, turn, st)
| cur, st, turn, fuel + 1 =>
  match dispatchTools projectRoot st cur.toolsUsed with
  | .error e => .error e
  | .ok (toolFeedback, st2) =>
    if toolFeedback = "" then .ok (cur, turn, st2)
    else turnLoopAux projectRoot respond (respond (turn + 1)) st2 (turn + 1) fuel

/-- The full speakWithLLM run: drive the turn loop from the initial
response; the Bool reports whether the maximum-turns warning fired
(currentTurn ≥ maxTurns after the loop). -/
def speakWithLLMRun (projectRoot : String) (respond : Nat → MessageResponse) (st : EditorSt) :
    Except FileHandlingError (MessageResponse × Nat × Bool × EditorSt) :=
  match turnLoopAux projectRoot respond (respond 0) st 0 maxTurns with
  | .error e => .error e
  | .ok (cur, turn, st2) => .ok (cur, turn, decide (maxTurns ≤ turn), st2)

/-! ## Auxiliary predicates and concrete instances used by the theorems -/

/-- The content part is free text. -/
def isTextPart : ContentPart → Bool
| .text _ => true
| _ => false

/-- The content part is a structured tool-use block. -/
def isToolUsePart : ContentPart → Bool
| .toolUse _ _ _ => true
| _ => false

/-- The transport attempt returned a response with a 5xx status. -/
def is5xxAttempt : SpeakAttempt → Bool
| .threw _ => false
| .resp r => decide (500 ≤ r.providerMessageResponseMeta.status)

/-- Request parameters with two fields in one insertion order. -/
def cacheParamsA : Json :=
  .obj (.cons "model" (.str "claude-3") (.cons "maxTokens" (.num 1000) .nil))

/-- The same two fields in the opposite insertion order. -/
def cacheParamsB : Json :=
  .obj (.cons "maxTokens" (.num 1000) (.cons "model" (.str "claude-3") .nil))

/-- Request parameters for the determinism witness. -/
def cacheParamsC : Json := .obj (.cons "model" (.str "claude-3") .nil)

/-- A second, identically serialized copy of the witness parameters. -/
def cacheParamsD : Json := .obj (.cons "model" (.str "claude-3") .nil)

/-- Project root of the patch round-trip scenario. -/
def c2Root : String := "/p"

/-- Patched file path of the patch round-trip scenario. -/
def c2Path : String := "/p/f.txt"

/-- A minimal unified diff replacing the line "a" with "b". -/
def c2PatchText : String := "--- f.txt\n+++ f.txt\n@@ -1,1 +1,1 @@\n-a\n+b\n"

/-- Initial state of the round-trip scenario: the file holds "a\n" and the
patch log is empty. -/
def c2St0 : EditorSt := { fs := [(c2Path, { content := "a\n" })], patchLog := [] }

/-- The state immediately after the patch is applied. -/
def c2St1 : EditorSt := (handleApplyPatch c2Root c2St0 c2Path c2PatchText).2

/-- Project root of the containment scenario. -/
def c3Root : String := "/root/project"

/-- A path resolving to the sibling directory /root/project-evil. -/
def c3Path : String := "../project-evil/x"

/-- A minimal unified diff replacing the line "a" with "b". -/
def c3PatchText : String := "@@ -1,1 +1,1 @@\n-a\n+b\n"

/-- State in which the outside file exists with content "a\n". -/
def c3St0 : EditorSt := { fs := [(c3Path, { content := "a\n" })], patchLog := [] }

/-- A tool-flagged response invoking a tool that is not registered. -/
def c1BadResp : MessageResponse :=
  { isTool := true,
    toolsUsed := [⟨"nonexistent_tool", "use1", .obj .nil, ""⟩],
    usage := ⟨5, 7, 12⟩ }

/-- A conversation with no registered tools. -/
def c1Conv : Conversation := { tools := [] }

/-- A tool-flagged max_tokens response invoking an unregistered tool. -/
def c5Resp : MessageResponse :=
  { isTool := true,
    messageStop := ⟨"max_tokens"⟩,
    toolsUsed := [⟨"foo_tool", "use1", .obj .nil, ""⟩] }

/-- A conversation with no registered tools. -/
def c5Conv : Conversation := { tools := [] }

/-- The request_files input schema as registered by addDefaultTools. -/
def c5wSchema : ToolSchema := ⟨[("fileNames", .arrayOfString)], ["fileNames"]⟩

/-- A conversation with request_files registered. -/
def c5wConv : Conversation :=
  { tools := [⟨"request_files", "Request files to be added to the chat", c5wSchema⟩] }

/-- A tool-flagged max_tokens response invoking the registered tool. -/
def c5wResp : MessageResponse :=
  { isTool := true,
    messageStop := ⟨"max_tokens"⟩,
    toolsUsed := [⟨"request_files", "use2", .obj .nil, ""⟩] }

/-- A response that always requests a tool call with an unrecognized name,
the scripted provider of the turn-bound scenario. -/
def c6Resp : MessageResponse :=
  { isTool := true, toolsUsed := [⟨"keep_going", "use4", .obj .nil, ""⟩] }

/-- A response with a 503 status, as returned by a failing provider. -/
def c7Resp503 : MessageResponse := { providerMessageResponseMeta := ⟨503, "Service Unavailable"⟩ }

/-- A tool use whose name matches none of the dispatch handlers. -/
def c8Tu : ToolUse := ⟨"bogus_tool", "use3", .obj .nil, ""⟩

/-- A tool-flagged response whose content is a single trailing text part. -/
def c9Resp : MessageResponse := { isTool := true, answerContent := [.text "hi"] }

/-- A state whose patch log names a file absent from the filesystem. -/
def c10St : EditorSt :=
  { fs := [], patchLog := [⟨"/q/g.txt", "@@ -1,1 +1,1 @@\n-x\n+y\n"⟩] }

end BBai

deriving instance DecidableEq for Except

namespace BBai

/-! ## Helper lemmas -/

/-- The characters of a concatenation are the concatenated characters. -/
theorem strAppendData (a b : String) : (a ++ b).data = a.data ++ b.data := by
  cases a; cases b; rfl

/-- A string with a newline spliced into it is not empty. -/
theorem strAppendNewlineNeEmpty (a b : String) : a ++ "\n" ++ b ≠ "" := by
  intro hc
  have h2 := congrArg String.data hc
  rw [strAppendData, strAppendData] at h2
  rw [show ("\n" : String).data = ['\n'] from rfl] at h2
  rw [show ("" : String).data = [] from rfl] at h2
  rcases List.append_eq_nil.mp h2 with ⟨h3, h4⟩
  rcases List.append_eq_nil.mp h3 with ⟨-, h5⟩
  exact List.cons_ne_nil _ _ h5

/-- Dispatching a tool whose name matches no handler returns the
unrecognized-tool feedback and leaves the state unchanged. -/
theorem handleToolUse_unknown (projectRoot : String) (st : EditorSt) (tu : ToolUse)
    (h : tu.toolName ∉ knownToolNames) :
    handleToolUse projectRoot st tu = (.ok ("Unknown tool used: " ++ tu.toolName), st) := by
  simp only [knownToolNames, List.mem_cons, List.mem_singleton, not_or] at h
  obtain ⟨h1, h2, h3⟩ := h
  simp [handleToolUse, h1, h2, h3]

/-- Dispatching a list of unrecognized tools succeeds with unchanged state
and, when the list is non-empty, non-empty feedback. -/
theorem dispatchTools_unknown (projectRoot : String) (st : EditorSt) (tus : List ToolUse)
    (h : ∀ tu ∈ tus, tu.toolName ∉ knownToolNames) :
    ∃ fb, dispatchTools projectRoot st tus = .ok (fb, st) ∧ (tus ≠ [] → fb ≠ "") := by
  induction tus with
  | nil => exact ⟨"", rfl, by simp⟩
  | cons tu rest ih =>
    obtain ⟨fb, hfb, _⟩ := ih (fun x hx => h x (List.mem_cons_of_mem _ hx))
    refine ⟨"Unknown tool used: " ++ tu.toolName ++ "\n" ++ fb, ?_,
      fun _ => strAppendNewlineNeEmpty _ _⟩
    rw [show ("Unknown tool used: " ++ tu.toolName ++ "\n" ++ fb)
      = ("Unknown tool used: " ++ tu.toolName) ++ "\n" ++ fb from rfl]
    simp [dispatchTools, handleToolUse_unknown projectRoot st tu (h tu (List.mem_cons_self _ _)),
      hfb]

/-- When every response requests only unrecognized tools, each loop
iteration consumes one unit of fuel and advances the turn counter, so the
loop runs the fuel down to zero. -/
theorem turnLoop_all_unknown (projectRoot : String) (respond : Nat → MessageResponse)
    (st : EditorSt)
    (hne : ∀ k, (respond k).toolsUsed ≠ [])
    (hunk : ∀ k, ∀ tu ∈ (respond k).toolsUsed, tu.toolName ∉ knownToolNames) :
    ∀ (fuel turn : Nat),
      turnLoopAux projectRoot respond (respond turn) st turn fuel
        = .ok (respond (turn + fuel), turn + fuel, st) := by
  intro fuel
  induction fuel with
  | zero => intro turn; simp [turnLoopAux]
  | succ f ih =>
    intro turn
    obtain ⟨fb, hfb, hfbne⟩ := dispatchTools_unknown projectRoot st _ (hunk turn)
    rw [turnLoopAux, hfb]
    simp only [if_neg (hfbne (hne turn))]
    rw [ih (turn + 1)]
    rw [show turn + 1 + f = turn + (f + 1) from by omega]

/-- The extraction loop returns normally exactly when a trailing text part
is covered: either something was already accumulated, or some tool-use part
occurs among the content parts. -/
theorem extractLoop_isSome_iff (parts : List ContentPart) :
    ∀ (thinking : String) (acc : List ToolUse),
    (extractLoop thinking acc parts).isSome = true ↔
      (∀ p, parts.getLast? = some p → isTextPart p = true →
        (acc ≠ [] ∨ ∃ q ∈ parts, isToolUsePart q = true)) := by
  induction parts with
  | nil => intro thinking acc; simp [extractLoop]
  | cons p rest ih =>
    intro thinking acc
    cases rest with
    | nil =>
      cases p with
      | text s =>
        cases h : acc.getLast? with
        | none =>
          rw [List.getLast?_eq_none_iff] at h
          subst h
          simp [extractLoop, isTextPart, isToolUsePart]
        | some last =>
          have hne : acc ≠ [] := by
            intro hc; subst hc; simp at h
          simp [extractLoop, h, isTextPart, isToolUsePart, hne]
      | image u => simp [extractLoop, isTextPart]
      | toolUse i n inp => simp [extractLoop, isTextPart]
    | cons r rs =>
      cases p with
      | text s =>
        rw [show extractLoop thinking acc (.text s :: r :: rs)
          = extractLoop (thinking ++ s) acc (r :: rs) from rfl]
        rw [ih]
        constructor
        · intro hx q hlast htext
          rcases hx q (by simpa using hlast) htext with h1 | ⟨w, hw, hwt⟩
          · exact .inl h1
          · exact .inr ⟨w, by simp [hw], hwt⟩
        · intro hx q hlast htext
          rcases hx q (by simpa using hlast) htext with h1 | ⟨w, hw, hwt⟩
          · exact .inl h1
          · rcases (List.mem_cons).mp hw with rfl | hmem
            · exact absurd hwt (by simp [isToolUsePart])
            · exact .inr ⟨w, hmem, hwt⟩
      | image u =>
        rw [show extractLoop thinking acc (.image u :: r :: rs)
          = extractLoop thinking acc (r :: rs) from rfl]
        rw [ih]
        constructor
        · intro hx q hlast htext
          rcases hx q (by simpa using hlast) htext with h1 | ⟨w, hw, hwt⟩
          · exact .inl h1
          · exact .inr ⟨w, by simp [hw], hwt⟩
        · intro hx q hlast htext
          rcases hx q (by simpa using hlast) htext with h1 | ⟨w, hw, hwt⟩
          · exact .inl h1
          · rcases (List.mem_cons).mp hw with rfl | hmem
            · exact absurd hwt (by simp [isToolUsePart])
            · exact .inr ⟨w, hmem, hwt⟩
      | toolUse i n inp =>
        rw [show extractLoop thinking acc (.toolUse i n inp :: r :: rs)
          = extractLoop "" (acc ++ [⟨n, i, inp, thinking⟩]) (r :: rs) from rfl]
        rw [ih]
        constructor
        · intro _ q hlast htext
          exact .inr ⟨.toolUse i n inp, by simp, by simp [isToolUsePart]⟩
        · intro _ q hlast htext
          exact .inl (by simp)

/-- Running the speakWithPlus retry loop against n consecutive 5xx
responses sleeps the doubling waits delay·2^j for j < n and continues from
attempt n with the delay doubled n times and the budget reduced by n. -/
theorem speakWithPlusLoop_consec_5xx (attempts : Nat → SpeakAttempt) :
    ∀ (n i fuel : Nat) (delay : Int), n ≤ fuel →
    (∀ j, j < n → is5xxAttempt (attempts (i + j)) = true) →
    speakWithPlusLoop attempts i fuel delay =
      ((speakWithPlusLoop attempts (i + n) (fuel - n) (delay * 2 ^ n)).1,
        (List.range n).map (fun j => delay * 2 ^ j)
          ++ (speakWithPlusLoop attempts (i + n) (fuel - n) (delay * 2 ^ n)).2) := by
  intro n
  induction n with
  | zero =>
    intro i fuel delay _ _
    simp
  | succ m ih =>
    intro i fuel delay hle h5
    cases fuel with
    | zero => omega
    | succ f =>
      have h50 : is5xxAttempt (attempts i) = true := by simpa using h5 0 (by omega)
      cases hA : attempts i with
      | threw msg => rw [hA] at h50; simp [is5xxAttempt] at h50
      | resp r =>
        rw [hA] at h50
        have hst : 500 ≤ r.providerMessageResponseMeta.status := by
          simpa [is5xxAttempt] using h50
        have hnot2xx : ¬ (200 ≤ r.providerMessageResponseMeta.status ∧
            r.providerMessageResponseMeta.status < 300) := by omega
        have hnot429 : ¬ (r.providerMessageResponseMeta.status = 429) := by omega
        rw [speakWithPlusLoop, hA]
        simp only [if_neg hnot2xx, if_neg hnot429, if_pos hst]
        have h5s : ∀ j, j < m → is5xxAttempt (attempts (i + 1 + j)) = true := by
          intro j hj
          have := h5 (j + 1) (by omega)
          rwa [show i + (j + 1) = i + 1 + j from by omega] at this
        rw [ih (i + 1) f (delay * 2) (by omega) h5s]
        have hi : i + 1 + m = i + (m + 1) := by omega
        have hf : f - m = f + 1 - (m + 1) := by omega
        have hd : delay * 2 * 2 ^ m = delay * 2 ^ (m + 1) := by ring
        rw [hi, hf, hd]
        have hrange : (List.range (m + 1)).map (fun j => delay * 2 ^ j)
            = delay :: (List.range m).map (fun j => delay * 2 * 2 ^ j) := by
          rw [List.range_succ_eq_map, List.map_cons, List.map_map]
          refine congrArg₂ List.cons (by simp) ?_
          refine List.map_congr_left (fun j _ => ?_)
          simp only [Function.comp_apply, pow_succ]
          ring
        rw [hrange]
        simp

/-! ## Claim theorems -/

/-- C1 (counterexample): three attempts each return a response whose
validation fails (the invoked tool is not registered), yet speakWithRetry
returns that response via Except.ok instead of failing with a
retry-exhaustion error, refuting the claim as stated. -/
theorem c1_counterexample :
    validateResponse c1BadResp c1Conv none = some ("Tool not found: " ++ "nonexistent_tool") ∧
    speakWithRetry c1Conv (fun _ => .ok c1BadResp) none =
      (c1Conv.updateTotals ⟨15, 21, 36⟩ 3, .ok c1BadResp) := by
  exact ⟨by decide, by rfl⟩

/-- C1 (amended): when every one of the maxSpeakRetries attempts of
speakWithRetry throws, the conversation running totals are updated with the
accumulated usage (zero tokens, one provider request per attempt) and the
call fails with the retry-exhaustion error carrying the last failure
reason. -/
theorem c1_amended_all_throws (conv : Conversation) (msgs : Nat → String)
    (cb : Option ValidateCallback) :
    speakWithRetry conv (fun i => .error (msgs i)) cb =
      (conv.updateTotals ⟨0, 0, 0⟩ maxSpeakRetries,
        .error ⟨"Request failed after multiple retries.", "caught error: " ++ msgs 2⟩) := by
  rfl

/-- C2: applying the failing-input patch succeeds and yields the patched
content, but the immediately following revert fails with the
cannot-create-reverse-patch error, leaves the patch log non-empty and the
file content unreverted — the code re-applies the forward patch to the
already patched content, so the documented round trip does not hold. -/
theorem c2_revert_after_apply_fails :
    handleApplyPatch c2Root c2St0 c2Path c2PatchText
      = (.ok (), { fs := [(c2Path, { content := "b\n" })], patchLog := [⟨c2Path, c2PatchText⟩] }) ∧
    (revertLastPatch c2St1).1
      = .error "Failed to apply original patch. Cannot create reverse patch." ∧
    (revertLastPatch c2St1).2 = c2St1 ∧
    c2St1.patchLog ≠ [] ∧
    fsRead (revertLastPatch c2St1).2.fs c2Path = .ok "b\n" := by
  refine ⟨?_, ?_, ?_, ?_, ?_⟩ <;> decide

/-- C3: the path ../project-evil/x resolves to /root/project-evil/x, which
is outside the project root /root/project (it is neither the root nor under
root/), yet isPathWithinProject accepts it because of the raw string-prefix
check, and handleApplyPatch proceeds to read and patch the outside file
instead of failing with the access-denied error. -/
theorem c3_path_containment_failing_input :
    isPathWithinProject c3Root c3Path = true ∧
    resolvePath c3Root (normalizePath c3Path) = "/root/project-evil/x" ∧
    jsStartsWith "/root/project-evil/x" (c3Root ++ "/") = false ∧
    "/root/project-evil/x" ≠ c3Root ∧
    (handleApplyPatch c3Root c3St0 c3Path c3PatchText).1 = .ok () ∧
    fsRead (handleApplyPatch c3Root c3St0 c3Path c3PatchText).2.fs c3Path = .ok "b\n" := by
  refine ⟨?_, ?_, ?_, ?_, ?_, ?_⟩ <;> decide

/-- C4 (counterexample): two requests holding the same set of key-value
pairs in different insertion orders produce different cache keys, because
the fingerprint is JSON.stringify of the parameters, refuting the claim as
stated. -/
theorem c4_counterexample :
    sameKeyValueSet cacheParamsA cacheParamsB = true ∧
    createRequestCacheKey "anthropic" cacheParamsA
      ≠ createRequestCacheKey "anthropic" cacheParamsB := by
  constructor <;> decide

/-- C4 (amended): the fingerprint is determined by the provider name and
the JSON.stringify serialization of the request parameters, so two requests
whose serializations coincide byte for byte receive identical cache keys;
key-order-insensitive canonicalization is not performed. -/
theorem c4_fingerprint_from_serialization (p : String) (r1 r2 : Json)
    (h : r1.stringify = r2.stringify) :
    createRequestCacheKey p r1 = createRequestCacheKey p r2 := by
  unfold createRequestCacheKey
  rw [h]

/-- C4 witness: identical parameters serialize identically and receive the
same cache key. -/
theorem c4_witness :
    createRequestCacheKey "anthropic" cacheParamsC
      = createRequestCacheKey "anthropic" cacheParamsD :=
  c4_fingerprint_from_serialization "anthropic" cacheParamsC cacheParamsD (by decide)

/-- C5 (counterexample): a tool-flagged response whose stop reason is the
output-length limit but whose invoked tool is not registered fails as
tool-not-found, not as truncated-tool-input, refuting the claimed check
order. -/
theorem c5_counterexample :
    c5Resp.messageStop.stopReason = "max_tokens" ∧
    validateResponse c5Resp c5Conv none = some ("Tool not found: " ++ "foo_tool") ∧
    validateResponse c5Resp c5Conv none ≠ some "Tool exceeded max tokens" := by
  refine ⟨rfl, ?_, ?_⟩ <;> decide

/-- C5 (amended): for the first tool invocation of a tool-flagged response,
the registration check comes first — an unregistered name fails as
tool-not-found regardless of the stop reason — and only for a registered
tool does a max_tokens stop reason fail as truncated-tool-input (before the
schema check). -/
theorem c5_validator_check_order (resp : MessageResponse) (conv : Conversation)
    (cb : Option ValidateCallback) (tu : ToolUse) (rest : List ToolUse)
    (hTool : resp.isTool = true) (hUsed : resp.toolsUsed = tu :: rest) :
    (conv.getTool tu.toolName = none →
      validateResponse resp conv cb = some ("Tool not found: " ++ tu.toolName)) ∧
    (∀ tool, conv.getTool tu.toolName = some tool →
      resp.messageStop.stopReason = "max_tokens" →
      validateResponse resp conv cb = some "Tool exceeded max tokens") := by
  constructor
  · intro hnone
    simp [validateResponse, hTool, hUsed, validateToolsUsed, hnone]
  · intro tool hsome hstop
    simp [validateResponse, hTool, hUsed, validateToolsUsed, hsome, hstop]

/-- C5 witness: with request_files registered and a max_tokens stop reason,
validation fails as truncated-tool-input. -/
theorem c5_witness :
    validateResponse c5wResp c5wConv none = some "Tool exceeded max tokens" :=
  (c5_validator_check_order c5wResp c5wConv none ⟨"request_files", "use2", .obj .nil, ""⟩ []
      rfl rfl).2
    ⟨"request_files", "Request files to be added to the chat", c5wSchema⟩ (by decide) rfl

/-- C6: against responses that always request a tool call (here an
unrecognized tool, which always yields feedback), the turn loop terminates
after exactly maxTurns = 5 follow-up turns, the max-turns warning condition
holds (the Bool component is true), and the last response is returned to
the caller rather than an error being thrown. -/
theorem c6_turn_bound (projectRoot : String) (respond : Nat → MessageResponse) (st : EditorSt)
    (hne : ∀ k, (respond k).toolsUsed ≠ [])
    (hunk : ∀ k, ∀ tu ∈ (respond k).toolsUsed, tu.toolName ∉ knownToolNames) :
    speakWithLLMRun projectRoot respond st = .ok (respond maxTurns, maxTurns, true, st) := by
  rw [speakWithLLMRun, turnLoop_all_unknown projectRoot respond st hne hunk maxTurns 0]
  norm_num [maxTurns]

/-- C6 witness: the scripted always-tool-calling provider stops at exactly
five follow-up turns with the warning set. -/
theorem c6_witness :
    speakWithLLMRun "/proj" (fun _ => c6Resp) { fs := [], patchLog := [] }
      = .ok (c6Resp, 5, true, { fs := [], patchLog := [] }) :=
  c6_turn_bound "/proj" (fun _ => c6Resp) { fs := [], patchLog := [] }
    (fun _ => by show c6Resp.toolsUsed ≠ []; decide)
    (fun _ tu htu => by
      have h2 : tu ∈ c6Resp.toolsUsed := htu
      rw [show c6Resp.toolsUsed = [⟨"keep_going", "use4", .obj .nil, ""⟩] from rfl,
        List.mem_singleton] at h2
      subst h2
      decide)

/-- C7: against n consecutive 5xx responses the waits slept before each
retry start at 1000 ms and double on each successive 5xx; with the default
budget of 3 attempts, three consecutive 5xx sleep 1000, 2000, 4000 ms and
the call fails with the max-retries-reached error, while a success after
n < 3 consecutive 5xx returns the 2xx response having slept exactly the
doubling waits. -/
theorem c7_backoff_schedule (attempts : Nat → SpeakAttempt) (n : Nat)
    (hn : n ≤ maxSpeakRetries)
    (h5 : ∀ j, j < n → is5xxAttempt (attempts j) = true) :
    (n = maxSpeakRetries →
      speakWithPlusRetries attempts
        = (.error ⟨"Max retries reached when calling LLM service.", ""⟩,
          [1000, 2000, 4000])) ∧
    (∀ r, n < maxSpeakRetries → attempts n = .resp r →
      200 ≤ r.providerMessageResponseMeta.status →
      r.providerMessageResponseMeta.status < 300 →
      speakWithPlusRetries attempts
        = (.ok r, (List.range n).map (fun j => 1000 * 2 ^ j))) := by
  have hmain := speakWithPlusLoop_consec_5xx attempts n 0 maxSpeakRetries 1000 hn
    (by simpa using h5)
  constructor
  · intro hEq
    subst hEq
    rw [speakWithPlusRetries, hmain]
    simp only [maxSpeakRetries]
    norm_num [speakWithPlusLoop]
    decide
  · intro r hlt hA h200 h300
    rw [speakWithPlusRetries, hmain]
    obtain ⟨k, hk⟩ : ∃ k, maxSpeakRetries - n = k + 1 := ⟨maxSpeakRetries - n - 1, by omega⟩
    rw [hk, show (0 : Nat) + n = n from by omega]
    rw [speakWithPlusLoop, hA]
    simp only [if_pos (And.intro h200 h300)]
    simp

/-- C7 witness: an always-503 provider exhausts the budget of 3 with waits
1000, 2000, 4000 ms and the max-retries error. -/
theorem c7_witness :
    speakWithPlusRetries (fun _ => .resp c7Resp503)
      = (.error ⟨"Max retries reached when calling LLM service.", ""⟩, [1000, 2000, 4000]) :=
  (c7_backoff_schedule (fun _ => .resp c7Resp503) 3 (by decide) (by decide)).1 rfl

/-- C8: dispatching a tool invocation whose name matches none of the
handlers (request_files, vector_search, apply_patch) returns the
unrecognized-tool feedback string without raising and without touching the
state, and a turn-loop step whose current response carries such an
invocation continues to the next turn rather than aborting. -/
theorem c8_unknown_tool_feedback (projectRoot : String) (st : EditorSt) (tu : ToolUse)
    (h : tu.toolName ∉ knownToolNames) :
    handleToolUse projectRoot st tu = (.ok ("Unknown tool used: " ++ tu.toolName), st) ∧
    (∀ (respond : Nat → MessageResponse) (cur : MessageResponse) (turn fuel : Nat),
      cur.toolsUsed = [tu] →
      turnLoopAux projectRoot respond cur st turn (fuel + 1) =
        turnLoopAux projectRoot respond (respond (turn + 1)) st (turn + 1) fuel) := by
  refine ⟨handleToolUse_unknown projectRoot st tu h, ?_⟩
  intro respond cur turn fuel hcur
  obtain ⟨fb, hfb, hfbne⟩ := dispatchTools_unknown projectRoot st [tu]
    (by intro x hx; rw [List.mem_singleton] at hx; subst hx; exact h)
  rw [turnLoopAux, hcur, hfb]
  simp only [if_neg (hfbne (by simp))]

/-- C8 witness: the bogus_tool invocation produces the unrecognized-tool
feedback with no error and no state change. -/
theorem c8_witness :
    handleToolUse "/proj" { fs := [], patchLog := [] } c8Tu
      = (.ok ("Unknown tool used: " ++ "bogus_tool"), { fs := [], patchLog := [] }) :=
  (c8_unknown_tool_feedback "/proj" { fs := [], patchLog := [] } c8Tu (by decide)).1

/-- C9: on a tool-flagged response whose non-empty answerContent ends with
a text part and contains no tool_use part, extraction fails (it indexes the
still-empty toolsUsed list), and extraction returns normally exactly when
any trailing text part is preceded by at least one tool_use part. -/
theorem c9_extract_fails_on_trailing_text (resp : MessageResponse)
    (hTool : resp.isTool = true) :
    (resp.answerContent ≠ [] →
      (∀ p, resp.answerContent.getLast? = some p → isTextPart p = true) →
      (∀ q ∈ resp.answerContent, isToolUsePart q = false) →
      extractToolUse resp.answerContent = none) ∧
    ((extractToolUse resp.answerContent).isSome = true ↔
      (∀ p, resp.answerContent.getLast? = some p → isTextPart p = true →
        ∃ q ∈ resp.answerContent, isToolUsePart q = true)) := by
  have hiff := extractLoop_isSome_iff resp.answerContent "" []
  constructor
  · intro hne hlastText hnoTool
    have hnotSome : ¬ (extractToolUse resp.answerContent).isSome = true := by
      rw [show extractToolUse resp.answerContent
        = extractLoop "" [] resp.answerContent from rfl]
      rw [hiff]
      intro hx
      obtain ⟨p, hp⟩ := Option.isSome_iff_exists.mp (List.getLast?_isSome.mpr hne)
      rcases hx p hp (hlastText p hp) with h1 | ⟨q, hq, hqt⟩
      · exact h1 rfl
      · rw [hnoTool q hq] at hqt; exact Bool.false_ne_true hqt
    rw [← Option.not_isSome_iff_eq_none]
    exact fun hc => hnotSome hc
  · rw [show extractToolUse resp.answerContent
      = extractLoop "" [] resp.answerContent from rfl]
    rw [hiff]
    constructor
    · intro hx p hp ht
      rcases hx p hp ht with h1 | h2
      · exact absurd rfl h1
      · exact h2
    · intro hx p hp ht
      exact .inr (hx p hp ht)

/-- C9 witness: a tool-flagged response whose content is the single text
part "hi" makes extraction fail. -/
theorem c9_witness : extractToolUse c9Resp.answerContent = none :=
  (c9_extract_fails_on_trailing_text c9Resp rfl).1 (by decide)
    (by
      intro p hp
      rw [show c9Resp.answerContent = [ContentPart.text "hi"] from rfl,
        List.getLast?_singleton] at hp
      cases hp
      rfl)
    (by decide)

/-- C10: on any state, a failing revert (empty log, unreadable file, either
patch application failing, or the write failing) leaves the patch log
unchanged, and a successful revert pops exactly the last log entry and has
written the reverted content to the logged file beforehand. -/
theorem c10_revert_pops_log_only_after_write (st : EditorSt) (h : st.patchLog ≠ []) :
    (∀ e st2, revertLastPatch st = (.error e, st2) → st2 = st) ∧
    (∀ st2, revertLastPatch st = (.ok (), st2) →
      st2.patchLog = st.patchLog.dropLast ∧
      ∃ entry content, st.patchLog.getLast? = some entry ∧
        fsWrite st.fs entry.filePath content = .ok st2.fs) := by
  constructor
  · intro e st2 hres
    unfold revertLastPatch at hres
    repeat' split at hres
    all_goals rw [Prod.mk.injEq] at hres
    all_goals first
      | exact hres.2.symm
      | exact Except.noConfusion hres.1
  · intro st2 hres
    unfold revertLastPatch at hres
    repeat' split at hres
    all_goals rw [Prod.mk.injEq] at hres
    all_goals try exact Except.noConfusion hres.1
    rename_i x1 lastPatch hlast x2 currentContent hread x3 patchResult happly x4
      revertedContent happly2 x5 fs2 hwrite
    have h2 := hres.2
    subst h2
    exact ⟨rfl, lastPatch, revertedContent, hlast, hwrite⟩

/-- C10 witness: reverting a state whose logged file is absent fails at the
read and leaves the state, hence the patch log, unchanged. -/
theorem c10_witness : (revertLastPatch c10St).2 = c10St :=
  (c10_revert_pops_log_only_after_write c10St (by decide)).1
    "read failed: NotFound" (revertLastPatch c10St).2 rfl

end BBai
